import Mathlib

/-!
Verification of the payments toy engine: a shallow embedding of the
transaction-processing core (the `Account` and `Transaction` aggregates,
the account view projection and the payments orchestrator), together
with theorems settling the specification claims.

The embedding follows the Rust sources:
  * `src/domain/props.rs`               — identifiers and amounts
  * `src/domain/transaction/*.rs`       — the Transaction aggregate
  * `src/domain/account/*.rs`           — the Account aggregate
  * `src/query/account.rs`              — the account view projection
  * `src/payments.rs`                   — the orchestrator

Machine decimals (`rust_decimal::Decimal`) are modelled exactly as a
mantissa/scale pair; event stores are modelled as append-only maps from
aggregate id to event list, and aggregates are rehydrated by folding
`apply` over the stored events, as the cqrs-es framework does.
-/

namespace Payments

/-! ## Decimal amounts (`rust_decimal::Decimal` value semantics)

A decimal is a signed integer mantissa `m` together with a scale `s`;
its value is `m / 10 ^ s`.  Addition and subtraction rescale to the
larger scale, exactly as `rust_decimal` does; comparisons compare
values.  Overflow of the 96-bit mantissa is not modelled (the spec
requires at least 28 significant digits and no claim exercises more). -/

structure Dec where
  m : Int
  s : Nat
deriving DecidableEq

def Dec.val (d : Dec) : ℚ := (d.m : ℚ) / (10 : ℚ) ^ d.s

def Dec.zero : Dec := ⟨0, 0⟩

def Dec.add (x y : Dec) : Dec :=
  if x.s ≤ y.s then ⟨x.m * 10 ^ (y.s - x.s) + y.m, y.s⟩
  else ⟨x.m + y.m * 10 ^ (x.s - y.s), x.s⟩

def Dec.sub (x y : Dec) : Dec :=
  if x.s ≤ y.s then ⟨x.m * 10 ^ (y.s - x.s) - y.m, y.s⟩
  else ⟨x.m - y.m * 10 ^ (x.s - y.s), x.s⟩

def Dec.lt (x y : Dec) : Bool := decide (x.m * 10 ^ y.s < y.m * 10 ^ x.s)

def Dec.le (x y : Dec) : Bool := decide (x.m * 10 ^ y.s ≤ y.m * 10 ^ x.s)

/-! ## Identifiers (`src/domain/props.rs`)

`ClientId` and `TransactionId` are newtypes over strings; we use the
underlying strings directly.  `Amount` is a newtype over `Decimal`. -/

abbrev ClientId := String
abbrev TransactionId := String
abbrev Amount := Dec

inductive TxType
  | Deposit
  | Withdrawal
deriving DecidableEq

/-! ## Transaction aggregate (`src/domain/transaction/*.rs`) -/

structure TransactionRecordedPayload where
  id : TransactionId
  client_id : ClientId
  amount : Amount
deriving DecidableEq

inductive TransactionEvent
  | TransactionRecorded (p : TransactionRecordedPayload)
deriving DecidableEq

structure RecordTransactionPayload where
  id : TransactionId
  client_id : ClientId
  amount : Amount
deriving DecidableEq

inductive TransactionCommand
  | RecordTransaction (p : RecordTransactionPayload)
deriving DecidableEq

inductive TransactionError
  | DuplicateTransaction
deriving DecidableEq

structure Transaction where
  recorded : Bool
  tx_type : Option TxType
  amount : Dec
deriving DecidableEq

/-- `Default` for the aggregate: `recorded=false`, `tx_type=None`,
`amount=Decimal::ZERO`. -/
def Transaction.initial : Transaction := ⟨false, none, Dec.zero⟩

/-- `Transaction::apply`: the only mutation performed on a
`TransactionRecorded` event is setting `recorded` to `true`; the event
payload is discarded (`TransactionEvent::TransactionRecorded(_)`). -/
def Transaction.applyEvent (t : Transaction) (e : TransactionEvent) : Transaction :=
  match e with
  | .TransactionRecorded _ => { t with recorded := true }

def require_new (t : Transaction) : Except TransactionError Unit :=
  if t.recorded then .error .DuplicateTransaction else .ok ()

def Transaction.record (t : Transaction) (p : RecordTransactionPayload) :
    Except TransactionError (List TransactionEvent) :=
  match require_new t with
  | .error e => .error e
  | .ok _ => .ok [.TransactionRecorded ⟨p.id, p.client_id, p.amount⟩]

def Transaction.handle (t : Transaction) (c : TransactionCommand) :
    Except TransactionError (List TransactionEvent) :=
  match c with
  | .RecordTransaction p => t.record p

def tx_aggregate_id (id : String) : String := "Transaction-" ++ id

/-! ## Account aggregate (`src/domain/account/*.rs`) -/

structure DepositAccountPayload where
  client_id : ClientId
  transaction_id : TransactionId
  amount : Amount
deriving DecidableEq

structure WithdrawAccountPayload where
  client_id : ClientId
  transaction_id : TransactionId
  amount : Amount
deriving DecidableEq

structure DisputeFundsPayload where
  client_id : ClientId
  transaction_id : TransactionId
  amount : Amount
deriving DecidableEq

structure ResolveDisputePayload where
  client_id : ClientId
  transaction_id : TransactionId
deriving DecidableEq

structure ChargebackDisputePayload where
  client_id : ClientId
  transaction_id : TransactionId
deriving DecidableEq

inductive AccountCommand
  | DepositAccount (p : DepositAccountPayload)
  | WithdrawAccount (p : WithdrawAccountPayload)
  | DisputeFunds (p : DisputeFundsPayload)
  | ResolveDispute (p : ResolveDisputePayload)
  | ChargebackDispute (p : ChargebackDisputePayload)
deriving DecidableEq

structure AccountDepositedPayload where
  client_id : ClientId
  transaction_id : TransactionId
  amount : Amount
deriving DecidableEq

structure AccountWithdrawnPayload where
  client_id : ClientId
  transaction_id : TransactionId
  amount : Amount
deriving DecidableEq

structure FundsDisputedPayload where
  client_id : ClientId
  transaction_id : TransactionId
  amount : Amount
deriving DecidableEq

structure DisputeResolvedPayload where
  client_id : ClientId
  transaction_id : TransactionId
  amount : Amount
deriving DecidableEq

structure DisputeChargedbackPayload where
  client_id : ClientId
  transaction_id : TransactionId
  amount : Amount
deriving DecidableEq

inductive AccountEvent
  | AccountDeposited (p : AccountDepositedPayload)
  | AccountWithdrawn (p : AccountWithdrawnPayload)
  | FundsDisputed (p : FundsDisputedPayload)
  | DisputeResolved (p : DisputeResolvedPayload)
  | DisputeChargedback (p : DisputeChargedbackPayload)
deriving DecidableEq

inductive AccountError
  | InsufficientFunds
  | IllegalAmount
  | AccountLocked
  | DisputeNotFound
  | DuplicateDispute
deriving DecidableEq

/-- `HashMap<TransactionId, Decimal>` modelled as an association list. -/
abbrev Disputes := List (TransactionId × Dec)

/-- `HashMap::insert` (replacing any existing binding for the key). -/
def disputesInsert (k : TransactionId) (v : Dec) (l : Disputes) : Disputes :=
  (k, v) :: l.filter (fun q => q.1 != k)

/-- `HashMap::remove`. -/
def disputesRemove (k : TransactionId) (l : Disputes) : Disputes :=
  l.filter (fun q => q.1 != k)

structure Account where
  locked : Bool
  funds_available : Dec
  funds_held : Dec
  disputes : Disputes
deriving DecidableEq

/-- `Default` for the aggregate: unlocked, zero balances, no disputes. -/
def Account.initial : Account := ⟨false, Dec.zero, Dec.zero, []⟩

/-- `Account::apply`. -/
def Account.applyEvent (a : Account) (e : AccountEvent) : Account :=
  match e with
  | .AccountDeposited p =>
      { a with funds_available := a.funds_available.add p.amount }
  | .AccountWithdrawn p =>
      { a with funds_available := a.funds_available.sub p.amount }
  | .FundsDisputed p =>
      { a with disputes := disputesInsert p.transaction_id p.amount a.disputes,
               funds_available := a.funds_available.sub p.amount,
               funds_held := a.funds_held.add p.amount }
  | .DisputeResolved p =>
      { a with disputes := disputesRemove p.transaction_id a.disputes,
               funds_available := a.funds_available.add p.amount,
               funds_held := a.funds_held.sub p.amount }
  | .DisputeChargedback p =>
      { a with locked := true,
               funds_held := a.funds_held.sub p.amount }

def Account.applyEvents (a : Account) (evs : List AccountEvent) : Account :=
  evs.foldl Account.applyEvent a

def require_legal_amount (amount : Amount) : Except AccountError Unit :=
  if Dec.le amount Dec.zero then .error .IllegalAmount
  else if 4 < amount.s then .error .IllegalAmount
  else .ok ()

def require_active_account (account : Account) : Except AccountError Unit :=
  if account.locked then .error .AccountLocked else .ok ()

def require_sufficient_funds (account : Account) (amount : Amount) :
    Except AccountError Unit :=
  if Dec.lt account.funds_available amount then .error .InsufficientFunds
  else .ok ()

def require_dispute (account : Account) (transaction_id : TransactionId) :
    Except AccountError Dec :=
  match List.lookup transaction_id account.disputes with
  | some x => .ok x
  | none => .error .DisputeNotFound

def require_no_active_dispute (account : Account) (transaction_id : TransactionId) :
    Except AccountError Unit :=
  if (List.lookup transaction_id account.disputes).isSome then
    .error .DuplicateDispute
  else .ok ()

def Account.deposit (a : Account) (p : DepositAccountPayload) :
    Except AccountError (List AccountEvent) :=
  match require_legal_amount p.amount with
  | .error e => .error e
  | .ok _ =>
    match require_active_account a with
    | .error e => .error e
    | .ok _ =>
      .ok [.AccountDeposited ⟨p.client_id, p.transaction_id, p.amount⟩]

def Account.withdraw (a : Account) (p : WithdrawAccountPayload) :
    Except AccountError (List AccountEvent) :=
  match require_legal_amount p.amount with
  | .error e => .error e
  | .ok _ =>
    match require_active_account a with
    | .error e => .error e
    | .ok _ =>
      match require_sufficient_funds a p.amount with
      | .error e => .error e
      | .ok _ =>
        .ok [.AccountWithdrawn ⟨p.client_id, p.transaction_id, p.amount⟩]

def Account.dispute (a : Account) (p : DisputeFundsPayload) :
    Except AccountError (List AccountEvent) :=
  match require_legal_amount p.amount with
  | .error e => .error e
  | .ok _ =>
    match require_active_account a with
    | .error e => .error e
    | .ok _ =>
      match require_no_active_dispute a p.transaction_id with
      | .error e => .error e
      | .ok _ =>
        match require_sufficient_funds a p.amount with
        | .error e => .error e
        | .ok _ =>
          .ok [.FundsDisputed ⟨p.client_id, p.transaction_id, p.amount⟩]

def Account.resolve_dispute (a : Account) (p : ResolveDisputePayload) :
    Except AccountError (List AccountEvent) :=
  match require_active_account a with
  | .error e => .error e
  | .ok _ =>
    match require_dispute a p.transaction_id with
    | .error e => .error e
    | .ok d =>
      .ok [.DisputeResolved ⟨p.client_id, p.transaction_id, d⟩]

def Account.chargeback_dispute (a : Account) (p : ChargebackDisputePayload) :
    Except AccountError (List AccountEvent) :=
  match require_active_account a with
  | .error e => .error e
  | .ok _ =>
    match require_dispute a p.transaction_id with
    | .error e => .error e
    | .ok d =>
      .ok [.DisputeChargedback ⟨p.client_id, p.transaction_id, d⟩]

def Account.handle (a : Account) (c : AccountCommand) :
    Except AccountError (List AccountEvent) :=
  match c with
  | .DepositAccount p => a.deposit p
  | .WithdrawAccount p => a.withdraw p
  | .DisputeFunds p => a.dispute p
  | .ResolveDispute p => a.resolve_dispute p
  | .ChargebackDispute p => a.chargeback_dispute p

def acc_aggregate_id (id : String) : String := "Account-" ++ id

/-! ## Account view projection (`src/query/account.rs`) -/

structure AccountView where
  client_id : String
  available_funds : Dec
  held_funds : Dec
  total_funds : Dec
  is_locked : Bool
deriving DecidableEq

/-- `Default` for the view. -/
def AccountView.initial : AccountView := ⟨"", Dec.zero, Dec.zero, Dec.zero, false⟩

/-- `View::<Account>::update` (the envelope's payload is the event). -/
def AccountView.update (v : AccountView) (e : AccountEvent) : AccountView :=
  match e with
  | .AccountDeposited p =>
      { v with client_id := p.client_id,
               available_funds := v.available_funds.add p.amount,
               total_funds := v.total_funds.add p.amount }
  | .AccountWithdrawn p =>
      { v with available_funds := v.available_funds.sub p.amount,
               total_funds := v.total_funds.sub p.amount }
  | .FundsDisputed p =>
      { v with available_funds := v.available_funds.sub p.amount,
               held_funds := v.held_funds.add p.amount }
  | .DisputeResolved p =>
      { v with available_funds := v.available_funds.add p.amount,
               held_funds := v.held_funds.sub p.amount }
  | .DisputeChargedback p =>
      { v with held_funds := v.held_funds.sub p.amount,
               total_funds := v.total_funds.sub p.amount,
               is_locked := true }

def AccountView.updateEvents (v : AccountView) (evs : List AccountEvent) : AccountView :=
  evs.foldl AccountView.update v

/-! ## Reachability by command handling

`Reach a v` holds when the pair of the Account aggregate and its view
projection is reachable from the initial state by a sequence of
successfully handled commands, each emitted event being applied to the
aggregate and folded into the view (the cqrs framework dispatches every
committed event to the registered query). -/

inductive Reach : Account → AccountView → Prop
  | init : Reach Account.initial AccountView.initial
  | step {a v evs} (c : AccountCommand) : Reach a v →
      Account.handle a c = .ok evs →
      Reach (a.applyEvents evs) (v.updateEvents evs)

/-- One command step at the aggregate level: a rejected command leaves
the state unchanged, a successful one applies its events. -/
def Account.stepCommand (a : Account) (c : AccountCommand) : Account :=
  match Account.handle a c with
  | .ok evs => a.applyEvents evs
  | .error _ => a

def Account.runCommands (a : Account) (cs : List AccountCommand) : Account :=
  cs.foldl Account.stepCommand a

/-! ## Payments orchestrator (`src/payments.rs`, `src/csv.rs`)

Each worker owns one event store holding both aggregates' streams,
keyed by aggregate id (`Transaction-{tx}` / `Account-{client}`).
`execute` rehydrates the aggregate by folding `apply` over the stored
events, runs `handle`, and appends the emitted events on success. -/

inductive CsvTxType
  | deposit
  | withdrawal
  | dispute
  | resolve
  | chargeback
deriving DecidableEq

structure CsvPaymentRecord where
  tx_type : CsvTxType
  client_id : String
  tx_id : String
  amount : Option Dec
deriving DecidableEq

structure PayState where
  txEvents : String → List TransactionEvent
  accEvents : String → List AccountEvent

def PayState.initial : PayState := ⟨fun _ => [], fun _ => []⟩

def loadTransaction (s : PayState) (aggId : String) : Transaction :=
  (s.txEvents aggId).foldl Transaction.applyEvent Transaction.initial

def loadAccount (s : PayState) (aggId : String) : Account :=
  (s.accEvents aggId).foldl Account.applyEvent Account.initial

/-- `CqrsFramework::execute` on the Transaction aggregate. -/
def executeTransaction (s : PayState) (aggId : String) (c : TransactionCommand) :
    PayState × Except TransactionError Unit :=
  match Transaction.handle (loadTransaction s aggId) c with
  | .error e => (s, .error e)
  | .ok evs =>
      ({ s with txEvents := fun k =>
          if k = aggId then s.txEvents k ++ evs else s.txEvents k },
       .ok ())

/-- `CqrsFramework::execute` on the Account aggregate. -/
def executeAccount (s : PayState) (aggId : String) (c : AccountCommand) :
    PayState × Except AccountError Unit :=
  match Account.handle (loadAccount s aggId) c with
  | .error e => (s, .error e)
  | .ok evs =>
      ({ s with accEvents := fun k =>
          if k = aggId then s.accEvents k ++ evs else s.accEvents k },
       .ok ())

/-- The non-fatal processing errors a record can produce. -/
inductive ProcError
  | NoAmount (tx_id : String)
  | TxError (e : TransactionError)
  | AccError (e : AccountError)
  | DisputeOnWithdrawal
deriving DecidableEq

/-- `Payments::handle_deposit`: require the amount, record the
transaction first (aborting on failure), then execute the Account
command, whose failure is propagated with `?`. -/
def handle_deposit (s : PayState) (r : CsvPaymentRecord) :
    PayState × Except ProcError Unit :=
  match r.amount with
  | none => (s, .error (.NoAmount r.tx_id))
  | some amount =>
    match executeTransaction s (tx_aggregate_id r.tx_id)
        (.RecordTransaction ⟨r.tx_id, r.client_id, amount⟩) with
    | (s1, .error e) => (s1, .error (.TxError e))
    | (s1, .ok _) =>
      match executeAccount s1 (acc_aggregate_id r.client_id)
          (.DepositAccount ⟨r.client_id, r.tx_id, amount⟩) with
      | (s2, .error e) => (s2, .error (.AccError e))
      | (s2, .ok _) => (s2, .ok ())

/-- `Payments::handle_withdrawal`: like deposit, but the Account
command's result is discarded (`let _ = ...`). -/
def handle_withdrawal (s : PayState) (r : CsvPaymentRecord) :
    PayState × Except ProcError Unit :=
  match r.amount with
  | none => (s, .error (.NoAmount r.tx_id))
  | some amount =>
    match executeTransaction s (tx_aggregate_id r.tx_id)
        (.RecordTransaction ⟨r.tx_id, r.client_id, amount⟩) with
    | (s1, .error e) => (s1, .error (.TxError e))
    | (s1, .ok _) =>
      ((executeAccount s1 (acc_aggregate_id r.client_id)
          (.WithdrawAccount ⟨r.client_id, r.tx_id, amount⟩)).1,
       .ok ())

/-- `Payments::handle_dispute_funds`: load the Transaction aggregate
(`require_transaction` only loads; it can fail solely on a store error,
which is not modelled), reject when its `tx_type` is `Withdrawal`, then
execute `DisputeFunds` with the loaded aggregate's amount, propagating
failure with `?`. -/
def handle_dispute_funds (s : PayState) (r : CsvPaymentRecord) :
    PayState × Except ProcError Unit :=
  match (loadTransaction s (tx_aggregate_id r.tx_id)).tx_type with
  | some .Withdrawal => (s, .error .DisputeOnWithdrawal)
  | _ =>
    match executeAccount s (acc_aggregate_id r.client_id)
        (.DisputeFunds ⟨r.client_id, r.tx_id,
          (loadTransaction s (tx_aggregate_id r.tx_id)).amount⟩) with
    | (s1, .error e) => (s1, .error (.AccError e))
    | (s1, .ok _) => (s1, .ok ())

/-- `Payments::handle_resolve_dispute`: load the Transaction aggregate
(result discarded), execute `ResolveDispute`, discard its result. -/
def handle_resolve_dispute (s : PayState) (r : CsvPaymentRecord) :
    PayState × Except ProcError Unit :=
  ((executeAccount s (acc_aggregate_id r.client_id)
      (.ResolveDispute ⟨r.client_id, r.tx_id⟩)).1,
   .ok ())

/-- `Payments::handle_chargeback_dispute`: load the Transaction
aggregate (result discarded), execute `ChargebackDispute`, discard its
result. -/
def handle_chargeback_dispute (s : PayState) (r : CsvPaymentRecord) :
    PayState × Except ProcError Unit :=
  ((executeAccount s (acc_aggregate_id r.client_id)
      (.ChargebackDispute ⟨r.client_id, r.tx_id⟩)).1,
   .ok ())

/-- `Payments::handle`: dispatch on the record's type. -/
def handleRecord (s : PayState) (r : CsvPaymentRecord) :
    PayState × Except ProcError Unit :=
  match r.tx_type with
  | .deposit => handle_deposit s r
  | .withdrawal => handle_withdrawal s r
  | .dispute => handle_dispute_funds s r
  | .resolve => handle_resolve_dispute s r
  | .chargeback => handle_chargeback_dispute s r

/-- A worker's sequential processing of its records (errors are logged
and the loop continues). -/
def processRecords (s : PayState) (rs : List CsvPaymentRecord) : PayState :=
  rs.foldl (fun st r => (handleRecord st r).1) s

/-! ## Concrete sample data used by witnesses and counterexamples -/

/-- `deposit, 1, 1, 1.0` -/
def rDep1 : CsvPaymentRecord := ⟨.deposit, "1", "1", some ⟨10, 1⟩⟩

/-- `dispute, 1, 1,` -/
def rDisp1 : CsvPaymentRecord := ⟨.dispute, "1", "1", none⟩

/-- `deposit, 1, 1, 5.0` -/
def rDep5 : CsvPaymentRecord := ⟨.deposit, "1", "1", some ⟨50, 1⟩⟩

/-- `withdrawal, 1, 2, 1.0` -/
def rWd2 : CsvPaymentRecord := ⟨.withdrawal, "1", "2", some ⟨10, 1⟩⟩

/-- `dispute, 1, 2,` -/
def rDisp2 : CsvPaymentRecord := ⟨.dispute, "1", "2", none⟩

/-- `dispute, 9, 99,` with transaction 99 never recorded -/
def rDisp99 : CsvPaymentRecord := ⟨.dispute, "9", "99", none⟩

/-- `deposit, 1, 1, 0.12345` (scale 5, so illegal for the Account) -/
def rDepBad : CsvPaymentRecord := ⟨.deposit, "1", "1", some ⟨12345, 5⟩⟩

/-- `withdrawal, 7, 8, 1.0` against an empty account -/
def rWdPoor : CsvPaymentRecord := ⟨.withdrawal, "7", "8", some ⟨10, 1⟩⟩

/-- A locked account, reached by command handling: deposit 1.0, dispute
it, charge it back. -/
def lockedAccount : Account :=
  Account.applyEvents Account.initial
    [.AccountDeposited ⟨"1", "5", ⟨10, 1⟩⟩,
     .FundsDisputed ⟨"1", "5", ⟨10, 1⟩⟩,
     .DisputeChargedback ⟨"1", "5", ⟨10, 1⟩⟩]

/-- State of a worker's store after processing `deposit, 1, 1, 1.0`. -/
def stateAfterDep1 : PayState := (handleRecord PayState.initial rDep1).1

/-- State after `deposit, 1, 1, 5.0` and `withdrawal, 1, 2, 1.0`
(scenario S5 of the spec, before the dispute row). -/
def stateAfterS5 : PayState := processRecords PayState.initial [rDep5, rWd2]

/-! ## Invariants used in the proofs -/

/-- Sum of the values of all open disputes. -/
def dsum (l : Disputes) : ℚ := (l.map (fun q => q.2.val)).sum

/-- Internal invariant of the Account aggregate along command-generated
runs: available funds are non-negative, held funds are non-negative,
held funds equal the sum of the open disputes while the account is
unlocked, every open dispute has a positive amount, and dispute keys
are distinct. -/
def AccountInv (a : Account) : Prop :=
  0 ≤ a.funds_available.val ∧ 0 ≤ a.funds_held.val ∧
  (a.locked = false → a.funds_held.val = dsum a.disputes) ∧
  (∀ q ∈ a.disputes, 0 < q.2.val) ∧
  (a.disputes.map Prod.fst).Nodup

/-- The view projection agrees with the aggregate it is folded from:
same available and held funds, and its independently maintained total
equals available plus held. -/
def ViewAgrees (a : Account) (v : AccountView) : Prop :=
  v.available_funds = a.funds_available ∧ v.held_funds = a.funds_held ∧
  v.total_funds.val = v.available_funds.val + v.held_funds.val

/-- Whether a command passes the `require_legal_amount` guard (the
guard only exists for the commands that carry an amount). -/
def commandAmountLegal : AccountCommand → Prop
  | .DepositAccount p => 0 < p.amount.val ∧ p.amount.s ≤ 4
  | .WithdrawAccount p => 0 < p.amount.val ∧ p.amount.s ≤ 4
  | .DisputeFunds p => 0 < p.amount.val ∧ p.amount.s ≤ 4
  | .ResolveDispute _ => True
  | .ChargebackDispute _ => True

/-! ## Basic lemmas about the decimal model -/

theorem Dec.val_zero : Dec.zero.val = 0 := by
  simp [Dec.zero, Dec.val]

theorem Dec.val_add (x y : Dec) : (Dec.add x y).val = x.val + y.val := by
  unfold Dec.add Dec.val
  split
  next h =>
    have hp : ((10 : ℚ) ^ (y.s - x.s)) * (10 : ℚ) ^ x.s = (10 : ℚ) ^ y.s := by
      rw [← pow_add, Nat.sub_add_cancel h]
    have h1 : ((10 : ℚ) ^ x.s) ≠ 0 := by positivity
    have h2 : ((10 : ℚ) ^ y.s) ≠ 0 := by positivity
    field_simp
    linear_combination ((x.m : ℚ) * (10 : ℚ) ^ y.s) * hp
  next h =>
    have h' : y.s ≤ x.s := le_of_not_le h
    have hp : ((10 : ℚ) ^ (x.s - y.s)) * (10 : ℚ) ^ y.s = (10 : ℚ) ^ x.s := by
      rw [← pow_add, Nat.sub_add_cancel h']
    have h1 : ((10 : ℚ) ^ x.s) ≠ 0 := by positivity
    have h2 : ((10 : ℚ) ^ y.s) ≠ 0 := by positivity
    field_simp
    linear_combination ((y.m : ℚ) * (10 : ℚ) ^ x.s) * hp

theorem Dec.val_sub (x y : Dec) : (Dec.sub x y).val = x.val - y.val := by
  unfold Dec.sub Dec.val
  split
  next h =>
    have hp : ((10 : ℚ) ^ (y.s - x.s)) * (10 : ℚ) ^ x.s = (10 : ℚ) ^ y.s := by
      rw [← pow_add, Nat.sub_add_cancel h]
    have h1 : ((10 : ℚ) ^ x.s) ≠ 0 := by positivity
    have h2 : ((10 : ℚ) ^ y.s) ≠ 0 := by positivity
    field_simp
    linear_combination ((x.m : ℚ) * (10 : ℚ) ^ y.s) * hp
  next h =>
    have h' : y.s ≤ x.s := le_of_not_le h
    have hp : ((10 : ℚ) ^ (x.s - y.s)) * (10 : ℚ) ^ y.s = (10 : ℚ) ^ x.s := by
      rw [← pow_add, Nat.sub_add_cancel h']
    have h1 : ((10 : ℚ) ^ x.s) ≠ 0 := by positivity
    have h2 : ((10 : ℚ) ^ y.s) ≠ 0 := by positivity
    field_simp
    linear_combination (-((y.m : ℚ) * (10 : ℚ) ^ x.s)) * hp

theorem Dec.lt_iff (x y : Dec) : Dec.lt x y = true ↔ x.val < y.val := by
  simp only [Dec.lt, decide_eq_true_eq, Dec.val]
  rw [div_lt_div_iff₀ (by positivity) (by positivity)]
  constructor
  · intro h; exact_mod_cast h
  · intro h; exact_mod_cast h

theorem Dec.le_iff (x y : Dec) : Dec.le x y = true ↔ x.val ≤ y.val := by
  simp only [Dec.le, decide_eq_true_eq, Dec.val]
  rw [div_le_div_iff₀ (by positivity) (by positivity)]
  constructor
  · intro h; exact_mod_cast h
  · intro h; exact_mod_cast h

/-! ## Association-list lemmas for the dispute map -/

theorem lookup_some_mem {l : Disputes} {k : TransactionId} {d : Dec}
    (h : List.lookup k l = some d) : (k, d) ∈ l := by
  induction l with
  | nil => simp [List.lookup] at h
  | cons q t ih =>
    obtain ⟨k', v⟩ := q
    rw [List.lookup] at h
    by_cases hk : k = k'
    · subst hk
      simp at h
      subst h
      exact List.mem_cons_self _ _
    · have hbeq : (k == k') = false := beq_eq_false_iff_ne.mpr hk
      rw [hbeq] at h
      exact List.mem_cons_of_mem _ (ih h)

theorem lookup_none_notkey {l : Disputes} {k : TransactionId}
    (h : List.lookup k l = none) : ∀ q ∈ l, q.1 ≠ k := by
  induction l with
  | nil => intro q hq; cases hq
  | cons q t ih =>
    obtain ⟨k', v⟩ := q
    rw [List.lookup] at h
    by_cases hk : k = k'
    · subst hk; simp at h
    · have hbeq : (k == k') = false := beq_eq_false_iff_ne.mpr hk
      rw [hbeq] at h
      intro q hq
      rcases List.mem_cons.mp hq with hq | hq
      · subst hq; exact fun hc => hk hc.symm
      · exact ih h q hq

theorem disputesRemove_eq_self {l : Disputes} {k : TransactionId}
    (h : ∀ q ∈ l, q.1 ≠ k) : disputesRemove k l = l := by
  unfold disputesRemove
  apply List.filter_eq_self.mpr
  intro q hq
  simpa using h q hq

theorem disputesRemove_subset {l : Disputes} {k : TransactionId} :
    ∀ q ∈ disputesRemove k l, q ∈ l := by
  intro q hq
  exact (List.mem_filter.mp hq).1

theorem disputesRemove_keys_nodup {l : Disputes} {k : TransactionId}
    (nd : (l.map Prod.fst).Nodup) : ((disputesRemove k l).map Prod.fst).Nodup :=
  nd.sublist ((List.filter_sublist l).map Prod.fst)

theorem lookup_none_key_not_mem {l : Disputes} {k : TransactionId}
    (h : List.lookup k l = none) : k ∉ l.map Prod.fst := by
  intro hk
  obtain ⟨q, hq, hfst⟩ := List.mem_map.mp hk
  exact lookup_none_notkey h q hq hfst

theorem disputesInsert_of_lookup_none {l : Disputes} {k : TransactionId} {v : Dec}
    (h : List.lookup k l = none) : disputesInsert k v l = (k, v) :: l := by
  unfold disputesInsert
  rw [show l.filter (fun q => q.1 != k) = disputesRemove k l from rfl,
    disputesRemove_eq_self (lookup_none_notkey h)]

theorem dsum_nil : dsum [] = 0 := rfl

theorem dsum_cons (q : TransactionId × Dec) (l : Disputes) :
    dsum (q :: l) = q.2.val + dsum l := by
  simp [dsum]

theorem dsum_nonneg {l : Disputes} (h : ∀ q ∈ l, 0 < q.2.val) : 0 ≤ dsum l := by
  induction l with
  | nil => simp [dsum_nil]
  | cons q t ih =>
    rw [dsum_cons]
    have h1 := h q (List.mem_cons_self _ _)
    have h2 := ih fun q hq => h q (List.mem_cons_of_mem _ hq)
    linarith

theorem dsum_remove {l : Disputes} {k : TransactionId} {d : Dec}
    (nd : (l.map Prod.fst).Nodup) (h : List.lookup k l = some d) :
    dsum l = d.val + dsum (disputesRemove k l) := by
  induction l with
  | nil => simp [List.lookup] at h
  | cons q t ih =>
    obtain ⟨k', v⟩ := q
    rw [List.map_cons, List.nodup_cons] at nd
    obtain ⟨hk', ndt⟩ := nd
    rw [List.lookup] at h
    by_cases hk : k = k'
    · subst hk
      simp at h
      have hrm : disputesRemove k ((k, v) :: t) = t := by
        unfold disputesRemove
        rw [List.filter_cons]
        simp only [bne_self_eq_false]
        simp only [Bool.false_eq_true, if_false]
        apply List.filter_eq_self.mpr
        intro q hq
        have hne : q.1 ≠ k := by
          intro hc
          have hmem : q.1 ∈ t.map Prod.fst := List.mem_map_of_mem Prod.fst hq
          rw [hc] at hmem
          exact hk' hmem
        simpa using hne
      rw [hrm, dsum_cons, h]
    · have hbeq : (k == k') = false := beq_eq_false_iff_ne.mpr hk
      rw [hbeq] at h
      have hrm : disputesRemove k ((k', v) :: t) = (k', v) :: disputesRemove k t := by
        unfold disputesRemove
        rw [List.filter_cons]
        have : ((k', v).1 != k) = true := by
          simpa using fun hc => hk hc.symm
        simp [this]
      rw [hrm, dsum_cons, dsum_cons, ih ndt h]
      ring

/-! ## Guard characterizations (`src/domain/account/aggregate.rs`) -/

theorem require_legal_amount_ok {amt : Amount} :
    require_legal_amount amt = .ok () ↔ 0 < amt.val ∧ amt.s ≤ 4 := by
  unfold require_legal_amount
  split
  next h =>
    have hle : amt.val ≤ 0 := by
      have := (Dec.le_iff amt Dec.zero).mp h
      rwa [Dec.val_zero] at this
    constructor
    · intro hc; cases hc
    · rintro ⟨h1, -⟩; linarith
  next h =>
    have hpos : 0 < amt.val := by
      have hnot : ¬ amt.val ≤ 0 := fun hc => by
        have := (Dec.le_iff amt Dec.zero).mpr (by rwa [Dec.val_zero])
        simp [this] at h
      linarith [lt_of_not_le hnot]
    split
    next h4 =>
      constructor
      · intro hc; cases hc
      · rintro ⟨-, h2⟩; omega
    next h4 =>
      constructor
      · intro _; exact ⟨hpos, by omega⟩
      · intro _; rfl

theorem require_active_account_ok {a : Account} :
    require_active_account a = .ok () ↔ a.locked = false := by
  unfold require_active_account
  split
  next h => simp [h]
  next h => simp at h; simp [h]

theorem require_active_account_locked {a : Account} (h : a.locked = true) :
    require_active_account a = .error .AccountLocked := by
  unfold require_active_account
  simp [h]

theorem require_sufficient_funds_ok {a : Account} {amt : Amount} :
    require_sufficient_funds a amt = .ok () ↔ amt.val ≤ a.funds_available.val := by
  unfold require_sufficient_funds
  split
  next h =>
    have := (Dec.lt_iff a.funds_available amt).mp h
    constructor
    · intro hc; cases hc
    · intro hc; linarith
  next h =>
    have hnl : ¬ a.funds_available.val < amt.val := fun hc =>
      by simp [(Dec.lt_iff a.funds_available amt).mpr hc] at h
    constructor
    · intro _; exact le_of_not_lt hnl
    · intro _; rfl

theorem require_sufficient_funds_err {a : Account} {amt : Amount}
    (h : a.funds_available.val < amt.val) :
    require_sufficient_funds a amt = .error .InsufficientFunds := by
  unfold require_sufficient_funds
  rw [if_pos ((Dec.lt_iff a.funds_available amt).mpr h)]

theorem require_dispute_ok {a : Account} {k : TransactionId} {d : Dec} :
    require_dispute a k = .ok d ↔ List.lookup k a.disputes = some d := by
  unfold require_dispute
  split
  next x hx => simp [hx]
  next hx => simp [hx]

theorem require_no_active_dispute_ok {a : Account} {k : TransactionId} :
    require_no_active_dispute a k = .ok () ↔ List.lookup k a.disputes = none := by
  unfold require_no_active_dispute
  split
  next h =>
    constructor
    · intro hc; cases hc
    · intro hc; rw [hc] at h; simp at h
  next h =>
    have hnone : List.lookup k a.disputes = none := by
      cases hl : List.lookup k a.disputes with
      | none => rfl
      | some d => rw [hl] at h; simp at h
    constructor
    · intro _; exact hnone
    · intro _; rfl

/-! ## Handler characterizations -/

theorem applyEvents_singleton (a : Account) (e : AccountEvent) :
    a.applyEvents [e] = a.applyEvent e := rfl

theorem updateEvents_singleton (v : AccountView) (e : AccountEvent) :
    v.updateEvents [e] = v.update e := rfl

theorem deposit_ok_elim {a : Account} {p : DepositAccountPayload}
    {evs : List AccountEvent} (h : Account.deposit a p = .ok evs) :
    evs = [.AccountDeposited ⟨p.client_id, p.transaction_id, p.amount⟩] ∧
    0 < p.amount.val ∧ p.amount.s ≤ 4 ∧ a.locked = false := by
  unfold Account.deposit at h
  cases hleg : require_legal_amount p.amount with
  | error e => rw [hleg] at h; exact Except.noConfusion h
  | ok u =>
    rw [hleg] at h
    cases hact : require_active_account a with
    | error e => rw [hact] at h; exact Except.noConfusion h
    | ok u2 =>
      rw [hact] at h
      cases u
      injection h with h'
      subst h'
      obtain ⟨hpos, hs⟩ := require_legal_amount_ok.mp hleg
      exact ⟨rfl, hpos, hs, require_active_account_ok.mp (by rw [hact])⟩

theorem withdraw_ok_elim {a : Account} {p : WithdrawAccountPayload}
    {evs : List AccountEvent} (h : Account.withdraw a p = .ok evs) :
    evs = [.AccountWithdrawn ⟨p.client_id, p.transaction_id, p.amount⟩] ∧
    0 < p.amount.val ∧ p.amount.s ≤ 4 ∧ a.locked = false ∧
    p.amount.val ≤ a.funds_available.val := by
  unfold Account.withdraw at h
  cases hleg : require_legal_amount p.amount with
  | error e => rw [hleg] at h; exact Except.noConfusion h
  | ok u =>
    rw [hleg] at h
    cases hact : require_active_account a with
    | error e => rw [hact] at h; exact Except.noConfusion h
    | ok u2 =>
      rw [hact] at h
      cases hsuf : require_sufficient_funds a p.amount with
      | error e => rw [hsuf] at h; exact Except.noConfusion h
      | ok u3 =>
        rw [hsuf] at h
        cases u; cases u3
        injection h with h'
        subst h'
        obtain ⟨hpos, hs⟩ := require_legal_amount_ok.mp hleg
        exact ⟨rfl, hpos, hs, require_active_account_ok.mp (by rw [hact]),
          require_sufficient_funds_ok.mp hsuf⟩

theorem dispute_ok_elim {a : Account} {p : DisputeFundsPayload}
    {evs : List AccountEvent} (h : Account.dispute a p = .ok evs) :
    evs = [.FundsDisputed ⟨p.client_id, p.transaction_id, p.amount⟩] ∧
    0 < p.amount.val ∧ p.amount.s ≤ 4 ∧ a.locked = false ∧
    List.lookup p.transaction_id a.disputes = none ∧
    p.amount.val ≤ a.funds_available.val := by
  unfold Account.dispute at h
  cases hleg : require_legal_amount p.amount with
  | error e => rw [hleg] at h; exact Except.noConfusion h
  | ok u =>
    rw [hleg] at h
    cases hact : require_active_account a with
    | error e => rw [hact] at h; exact Except.noConfusion h
    | ok u2 =>
      rw [hact] at h
      cases hnad : require_no_active_dispute a p.transaction_id with
      | error e => rw [hnad] at h; exact Except.noConfusion h
      | ok u3 =>
        rw [hnad] at h
        cases hsuf : require_sufficient_funds a p.amount with
        | error e => rw [hsuf] at h; exact Except.noConfusion h
        | ok u4 =>
          rw [hsuf] at h
          cases u; cases u3; cases u4
          injection h with h'
          subst h'
          obtain ⟨hpos, hs⟩ := require_legal_amount_ok.mp hleg
          exact ⟨rfl, hpos, hs, require_active_account_ok.mp (by rw [hact]),
            require_no_active_dispute_ok.mp hnad,
            require_sufficient_funds_ok.mp hsuf⟩

theorem resolve_ok_elim {a : Account} {p : ResolveDisputePayload}
    {evs : List AccountEvent} (h : Account.resolve_dispute a p = .ok evs) :
    a.locked = false ∧ ∃ d, List.lookup p.transaction_id a.disputes = some d ∧
      evs = [.DisputeResolved ⟨p.client_id, p.transaction_id, d⟩] := by
  unfold Account.resolve_dispute at h
  cases hact : require_active_account a with
  | error e => rw [hact] at h; exact Except.noConfusion h
  | ok u =>
    rw [hact] at h
    cases hdis : require_dispute a p.transaction_id with
    | error e => rw [hdis] at h; exact Except.noConfusion h
    | ok d =>
      rw [hdis] at h
      injection h with h'
      subst h'
      exact ⟨require_active_account_ok.mp (by rw [hact]), d,
        require_dispute_ok.mp hdis, rfl⟩

theorem chargeback_ok_elim {a : Account} {p : ChargebackDisputePayload}
    {evs : List AccountEvent} (h : Account.chargeback_dispute a p = .ok evs) :
    a.locked = false ∧ ∃ d, List.lookup p.transaction_id a.disputes = some d ∧
      evs = [.DisputeChargedback ⟨p.client_id, p.transaction_id, d⟩] := by
  unfold Account.chargeback_dispute at h
  cases hact : require_active_account a with
  | error e => rw [hact] at h; exact Except.noConfusion h
  | ok u =>
    rw [hact] at h
    cases hdis : require_dispute a p.transaction_id with
    | error e => rw [hdis] at h; exact Except.noConfusion h
    | ok d =>
      rw [hdis] at h
      injection h with h'
      subst h'
      exact ⟨require_active_account_ok.mp (by rw [hact]), d,
        require_dispute_ok.mp hdis, rfl⟩

/-- On a locked account every command is rejected (the error is not
always `AccountLocked`: deposit, withdraw and dispute check the amount
first). -/
theorem handle_locked_error {a : Account} (h : a.locked = true)
    (c : AccountCommand) : ∃ e, Account.handle a c = .error e := by
  have hact := require_active_account_locked h
  cases c with
  | DepositAccount p =>
    rw [show Account.handle a (.DepositAccount p) = Account.deposit a p from rfl]
    unfold Account.deposit
    cases hleg : require_legal_amount p.amount with
    | error e => exact ⟨e, rfl⟩
    | ok u => exact ⟨.AccountLocked, by rw [hact]⟩
  | WithdrawAccount p =>
    rw [show Account.handle a (.WithdrawAccount p) = Account.withdraw a p from rfl]
    unfold Account.withdraw
    cases hleg : require_legal_amount p.amount with
    | error e => exact ⟨e, rfl⟩
    | ok u => exact ⟨.AccountLocked, by rw [hact]⟩
  | DisputeFunds p =>
    rw [show Account.handle a (.DisputeFunds p) = Account.dispute a p from rfl]
    unfold Account.dispute
    cases hleg : require_legal_amount p.amount with
    | error e => exact ⟨e, rfl⟩
    | ok u => exact ⟨.AccountLocked, by rw [hact]⟩
  | ResolveDispute p =>
    refine ⟨.AccountLocked, ?_⟩
    rw [show Account.handle a (.ResolveDispute p) = Account.resolve_dispute a p from rfl]
    unfold Account.resolve_dispute
    rw [hact]
  | ChargebackDispute p =>
    refine ⟨.AccountLocked, ?_⟩
    rw [show Account.handle a (.ChargebackDispute p) = Account.chargeback_dispute a p from rfl]
    unfold Account.chargeback_dispute
    rw [hact]

/-- On a locked account, every command passing the amount guard fails
with exactly `AccountLocked`. -/
theorem handle_locked_amount_legal {a : Account} (h : a.locked = true)
    {c : AccountCommand} (hleg : commandAmountLegal c) :
    Account.handle a c = .error .AccountLocked := by
  have hact := require_active_account_locked h
  cases c with
  | DepositAccount p =>
    have hok : require_legal_amount p.amount = .ok () :=
      require_legal_amount_ok.mpr hleg
    rw [show Account.handle a (.DepositAccount p) = Account.deposit a p from rfl]
    unfold Account.deposit
    rw [hok, hact]
  | WithdrawAccount p =>
    have hok : require_legal_amount p.amount = .ok () :=
      require_legal_amount_ok.mpr hleg
    rw [show Account.handle a (.WithdrawAccount p) = Account.withdraw a p from rfl]
    unfold Account.withdraw
    rw [hok, hact]
  | DisputeFunds p =>
    have hok : require_legal_amount p.amount = .ok () :=
      require_legal_amount_ok.mpr hleg
    rw [show Account.handle a (.DisputeFunds p) = Account.dispute a p from rfl]
    unfold Account.dispute
    rw [hok, hact]
  | ResolveDispute p =>
    rw [show Account.handle a (.ResolveDispute p) = Account.resolve_dispute a p from rfl]
    unfold Account.resolve_dispute
    rw [hact]
  | ChargebackDispute p =>
    rw [show Account.handle a (.ChargebackDispute p) = Account.chargeback_dispute a p from rfl]
    unfold Account.chargeback_dispute
    rw [hact]

/-! ## The reachability invariant -/

/-- Along every command-generated run, the aggregate satisfies its
internal invariant and the view projection agrees with it. -/
theorem reach_inv {a : Account} {v : AccountView} (h : Reach a v) :
    AccountInv a ∧ ViewAgrees a v := by
  induction h with
  | init =>
    constructor
    · refine ⟨?_, ?_, ?_, ?_, ?_⟩ <;>
        simp [Account.initial, Dec.val_zero, dsum]
    · refine ⟨rfl, rfl, ?_⟩
      simp [Account.initial, AccountView.initial, Dec.val_zero]
  | step c hr hok ih =>
    obtain ⟨⟨hav, hheld, hlockheld, hpos, hnd⟩, hva, hvh, hvt⟩ := ih
    rename_i a v evs
    cases c with
    | DepositAccount p =>
      obtain ⟨hevs, hpos2, hs2, hlock⟩ :=
        deposit_ok_elim (by rwa [show Account.handle a (.DepositAccount p) =
          Account.deposit a p from rfl] at hok)
      subst hevs
      rw [applyEvents_singleton, updateEvents_singleton]
      simp only [Account.applyEvent, AccountView.update]
      refine ⟨⟨?_, ?_, ?_, ?_, ?_⟩, ?_, ?_, ?_⟩
      · rw [Dec.val_add]; linarith
      · exact hheld
      · exact hlockheld
      · exact hpos
      · exact hnd
      · rw [hva]
      · exact hvh
      · rw [Dec.val_add, Dec.val_add]; linarith
    | WithdrawAccount p =>
      obtain ⟨hevs, hpos2, hs2, hlock, hsuf⟩ :=
        withdraw_ok_elim (by rwa [show Account.handle a (.WithdrawAccount p) =
          Account.withdraw a p from rfl] at hok)
      subst hevs
      rw [applyEvents_singleton, updateEvents_singleton]
      simp only [Account.applyEvent, AccountView.update]
      refine ⟨⟨?_, ?_, ?_, ?_, ?_⟩, ?_, ?_, ?_⟩
      · rw [Dec.val_sub]; linarith
      · exact hheld
      · exact hlockheld
      · exact hpos
      · exact hnd
      · rw [hva]
      · exact hvh
      · rw [Dec.val_sub, Dec.val_sub]; linarith
    | DisputeFunds p =>
      obtain ⟨hevs, hpos2, hs2, hlock, hnone, hsuf⟩ :=
        dispute_ok_elim (by rwa [show Account.handle a (.DisputeFunds p) =
          Account.dispute a p from rfl] at hok)
      subst hevs
      rw [applyEvents_singleton, updateEvents_singleton]
      simp only [Account.applyEvent, AccountView.update]
      have hins := disputesInsert_of_lookup_none (v := p.amount) hnone
      refine ⟨⟨?_, ?_, ?_, ?_, ?_⟩, ?_, ?_, ?_⟩
      · rw [Dec.val_sub]; linarith
      · rw [Dec.val_add]; linarith
      · intro hl
        rw [hins, dsum_cons, Dec.val_add, hlockheld hl]
        exact add_comm _ _
      · rw [hins]
        intro q hq
        rcases List.mem_cons.mp hq with hq | hq
        · subst hq; exact hpos2
        · exact hpos q hq
      · rw [hins, List.map_cons, List.nodup_cons]
        exact ⟨lookup_none_key_not_mem hnone, hnd⟩
      · rw [hva]
      · rw [hvh]
      · rw [Dec.val_sub, Dec.val_add]; linarith
    | ResolveDispute p =>
      obtain ⟨hlock, d, hlup, hevs⟩ :=
        resolve_ok_elim (by rwa [show Account.handle a (.ResolveDispute p) =
          Account.resolve_dispute a p from rfl] at hok)
      subst hevs
      rw [applyEvents_singleton, updateEvents_singleton]
      simp only [Account.applyEvent, AccountView.update]
      have hdpos : 0 < d.val := hpos _ (lookup_some_mem hlup)
      have hsum := dsum_remove hnd hlup
      have hrmpos : ∀ q ∈ disputesRemove p.transaction_id a.disputes, 0 < q.2.val :=
        fun q hq => hpos q (disputesRemove_subset q hq)
      have hrmnn := dsum_nonneg hrmpos
      have hheldsum := hlockheld hlock
      refine ⟨⟨?_, ?_, ?_, ?_, ?_⟩, ?_, ?_, ?_⟩
      · rw [Dec.val_add]; linarith
      · rw [Dec.val_sub]; linarith
      · intro _
        rw [Dec.val_sub, hheldsum, hsum]; ring
      · exact hrmpos
      · exact disputesRemove_keys_nodup hnd
      · rw [hva]
      · rw [hvh]
      · rw [Dec.val_add, Dec.val_sub]; linarith
    | ChargebackDispute p =>
      obtain ⟨hlock, d, hlup, hevs⟩ :=
        chargeback_ok_elim (by rwa [show Account.handle a (.ChargebackDispute p) =
          Account.chargeback_dispute a p from rfl] at hok)
      subst hevs
      rw [applyEvents_singleton, updateEvents_singleton]
      simp only [Account.applyEvent, AccountView.update]
      have hdpos : 0 < d.val := hpos _ (lookup_some_mem hlup)
      have hsum := dsum_remove hnd hlup
      have hrmnn := dsum_nonneg
        (fun q hq => hpos q (disputesRemove_subset (k := p.transaction_id) q hq))
      have hheldsum := hlockheld hlock
      refine ⟨⟨?_, ?_, ?_, ?_, ?_⟩, ?_, ?_, ?_⟩
      · exact hav
      · rw [Dec.val_sub]; linarith
      · intro hcontra; exact absurd hcontra (by simp)
      · exact hpos
      · exact hnd
      · exact hva
      · rw [hvh]
      · rw [Dec.val_sub, Dec.val_sub]; linarith

theorem require_legal_amount_cases (amt : Amount) :
    require_legal_amount amt = .ok () ∨
    require_legal_amount amt = .error .IllegalAmount := by
  unfold require_legal_amount
  split
  · right; rfl
  · split
    · right; rfl
    · left; rfl

theorem require_legal_amount_illegal {amt : Amount}
    (h : ¬(0 < amt.val ∧ amt.s ≤ 4)) :
    require_legal_amount amt = .error .IllegalAmount := by
  rcases require_legal_amount_cases amt with hc | hc
  · exact absurd (require_legal_amount_ok.mp hc) h
  · exact hc

/-- Claim C2: for every sequence of account events produced by
processing commands from the initial account state, after any prefix of
that sequence — that is, in every reachable aggregate/view pair — the
projected view satisfies `total = available + held` and `held ≥ 0`. -/
theorem C2_view_invariant {a : Account} {v : AccountView} (h : Reach a v) :
    v.total_funds.val = v.available_funds.val + v.held_funds.val ∧
    0 ≤ v.held_funds.val := by
  obtain ⟨⟨hav, hheld, -, -, -⟩, hva, hvh, hvt⟩ := reach_inv h
  refine ⟨hvt, ?_⟩
  rw [hvh]
  exact hheld

/-- Witness for C2, at the one-step run consisting of a deposit of 1.0. -/
theorem C2_view_invariant_witness :
    (AccountView.updateEvents AccountView.initial
        [.AccountDeposited ⟨"1", "1", ⟨10, 1⟩⟩]).total_funds.val =
      (AccountView.updateEvents AccountView.initial
        [.AccountDeposited ⟨"1", "1", ⟨10, 1⟩⟩]).available_funds.val +
      (AccountView.updateEvents AccountView.initial
        [.AccountDeposited ⟨"1", "1", ⟨10, 1⟩⟩]).held_funds.val ∧
    0 ≤ (AccountView.updateEvents AccountView.initial
        [.AccountDeposited ⟨"1", "1", ⟨10, 1⟩⟩]).held_funds.val :=
  C2_view_invariant
    (Reach.step (.DepositAccount ⟨"1", "1", ⟨10, 1⟩⟩) Reach.init rfl)

/-- Claim C10: in every account state reachable from the initial state
by command handling, available funds are non-negative — the commands
that decrease `available` (withdraw and dispute) are guarded by
`require_sufficient_funds`, and no other transition decreases it. -/
theorem C10_available_nonneg {a : Account} {v : AccountView} (h : Reach a v) :
    0 ≤ a.funds_available.val :=
  (reach_inv h).1.1

/-- Witness for C10, after a deposit of 1.0 from the initial state. -/
theorem C10_available_nonneg_witness :
    0 ≤ (Account.applyEvents Account.initial
        [.AccountDeposited ⟨"1", "1", ⟨10, 1⟩⟩]).funds_available.val :=
  C10_available_nonneg
    (Reach.step (.DepositAccount ⟨"1", "1", ⟨10, 1⟩⟩) Reach.init rfl)

/-- Counterexample to claim C6 as stated: on a locked account a
`Deposit` whose amount fails the legality guard (here `0`) is rejected
with `IllegalAmount`, not `AccountLocked`, because deposit checks
`require_legal_amount` before `require_active_account`. -/
theorem C6_counterexample :
    lockedAccount.locked = true ∧
    Account.handle lockedAccount (.DepositAccount ⟨"1", "6", ⟨0, 0⟩⟩) =
      .error .IllegalAmount ∧
    Account.handle lockedAccount (.DepositAccount ⟨"1", "6", ⟨0, 0⟩⟩) ≠
      .error .AccountLocked := by
  refine ⟨rfl, rfl, fun hc => ?_⟩
  have heval : (Except.error AccountError.IllegalAmount :
      Except AccountError (List AccountEvent)) = .error .AccountLocked := by
    calc (Except.error AccountError.IllegalAmount :
        Except AccountError (List AccountEvent))
        = Account.handle lockedAccount (.DepositAccount ⟨"1", "6", ⟨0, 0⟩⟩) := rfl
      _ = .error .AccountLocked := hc
  injection heval with h3
  exact AccountError.noConfusion h3

/-- Claim C6 (amended): once `locked = true`, every balance-mutating
command is rejected and produces no event — failing with
`AccountLocked` whenever the amount guard passes (deposit, withdraw and
dispute check `require_legal_amount` first, so an illegal amount yields
`IllegalAmount` instead) — hence the account state, in particular its
available funds, held funds and dispute set, never changes after a
chargeback. -/
theorem C6_locked_terminal {a : Account} (h : a.locked = true) :
    (∀ c, ∃ e, Account.handle a c = .error e) ∧
    (∀ c, commandAmountLegal c → Account.handle a c = .error .AccountLocked) ∧
    (∀ cs, Account.runCommands a cs = a) := by
  refine ⟨handle_locked_error h, fun c hc => handle_locked_amount_legal h hc, ?_⟩
  intro cs
  induction cs with
  | nil => rfl
  | cons c cs ih =>
    have hst : Account.stepCommand a c = a := by
      unfold Account.stepCommand
      obtain ⟨e, he⟩ := handle_locked_error h c
      rw [he]
    unfold Account.runCommands at ih ⊢
    rw [List.foldl_cons, hst]
    exact ih

/-- Witness for C6 (amended) on a concrete locked account. -/
theorem C6_locked_terminal_witness :
    Account.handle lockedAccount (.DepositAccount ⟨"1", "6", ⟨10, 1⟩⟩) =
      .error .AccountLocked ∧
    Account.runCommands lockedAccount
      [.DepositAccount ⟨"1", "6", ⟨10, 1⟩⟩, .ResolveDispute ⟨"1", "5"⟩] =
      lockedAccount :=
  ⟨(C6_locked_terminal (by decide)).2.1 _ ⟨by norm_num [Dec.val], by norm_num⟩,
   (C6_locked_terminal (by decide)).2.2 _⟩

/-- Claim C7: a `Withdraw` command emits `AccountWithdrawn` (whose
application subtracts the amount from `available` and changes nothing
else) if and only if the amount is legal (`0 < a`, `scale ≤ 4`), the
account is not locked, and `available ≥ a`; the guards are evaluated in
that order and the first failing guard's error is returned, with no
event produced. -/
theorem C7_withdraw_guards (a : Account) (p : WithdrawAccountPayload) :
    (Account.handle a (.WithdrawAccount p) =
        .ok [.AccountWithdrawn ⟨p.client_id, p.transaction_id, p.amount⟩] ↔
      (0 < p.amount.val ∧ p.amount.s ≤ 4) ∧ a.locked = false ∧
        p.amount.val ≤ a.funds_available.val) ∧
    (¬(0 < p.amount.val ∧ p.amount.s ≤ 4) →
      Account.handle a (.WithdrawAccount p) = .error .IllegalAmount) ∧
    ((0 < p.amount.val ∧ p.amount.s ≤ 4) → a.locked = true →
      Account.handle a (.WithdrawAccount p) = .error .AccountLocked) ∧
    ((0 < p.amount.val ∧ p.amount.s ≤ 4) → a.locked = false →
      a.funds_available.val < p.amount.val →
      Account.handle a (.WithdrawAccount p) = .error .InsufficientFunds) ∧
    (∀ evs, Account.handle a (.WithdrawAccount p) = .ok evs →
      (a.applyEvents evs).funds_available.val =
          a.funds_available.val - p.amount.val ∧
      (a.applyEvents evs).funds_held = a.funds_held ∧
      (a.applyEvents evs).locked = a.locked ∧
      (a.applyEvents evs).disputes = a.disputes) := by
  have hred : Account.handle a (.WithdrawAccount p) = Account.withdraw a p := rfl
  refine ⟨⟨fun h => ?_, fun h => ?_⟩, fun h => ?_, fun h1 h2 => ?_,
    fun h1 h2 h3 => ?_, fun evs h => ?_⟩
  · obtain ⟨-, hpos, hs, hlock, hsuf⟩ := withdraw_ok_elim (hred ▸ h)
    exact ⟨⟨hpos, hs⟩, hlock, hsuf⟩
  · obtain ⟨hleg, hlock, hsuf⟩ := h
    rw [hred]
    unfold Account.withdraw
    rw [require_legal_amount_ok.mpr hleg, require_active_account_ok.mpr hlock,
      require_sufficient_funds_ok.mpr hsuf]
  · rw [hred]
    unfold Account.withdraw
    rw [require_legal_amount_illegal h]
  · rw [hred]
    unfold Account.withdraw
    rw [require_legal_amount_ok.mpr h1, require_active_account_locked h2]
  · rw [hred]
    unfold Account.withdraw
    rw [require_legal_amount_ok.mpr h1, require_active_account_ok.mpr h2,
      require_sufficient_funds_err h3]
  · obtain ⟨hevs, -, -, -, -⟩ := withdraw_ok_elim (hred ▸ h)
    subst hevs
    rw [applyEvents_singleton]
    exact ⟨Dec.val_sub _ _, rfl, rfl, rfl⟩

/-- Witness for C7: a withdrawal of 1.0 from an unlocked account with
5.0 available succeeds. -/
theorem C7_withdraw_guards_witness :
    Account.handle (Account.mk false ⟨50, 1⟩ Dec.zero [])
        (.WithdrawAccount ⟨"1", "2", ⟨10, 1⟩⟩) =
      .ok [.AccountWithdrawn ⟨"1", "2", ⟨10, 1⟩⟩] :=
  (C7_withdraw_guards (Account.mk false ⟨50, 1⟩ Dec.zero [])
      ⟨"1", "2", ⟨10, 1⟩⟩).1.mpr
    ⟨⟨by norm_num [Dec.val], by norm_num⟩, rfl, by norm_num [Dec.val]⟩

/-- Claim C8: applying `DisputeChargedback` with amount `d` leaves
`available` unchanged, decreases `held` by `d` and locks the account;
in the view it also decreases `total` by `d`, so
`total = available + held` is preserved. -/
theorem C8_chargeback_frame (a : Account) (v : AccountView)
    (p : DisputeChargedbackPayload) :
    (a.applyEvent (.DisputeChargedback p)).funds_available =
        a.funds_available ∧
    (a.applyEvent (.DisputeChargedback p)).funds_held.val =
        a.funds_held.val - p.amount.val ∧
    (a.applyEvent (.DisputeChargedback p)).locked = true ∧
    (v.update (.DisputeChargedback p)).available_funds = v.available_funds ∧
    (v.update (.DisputeChargedback p)).held_funds.val =
        v.held_funds.val - p.amount.val ∧
    (v.update (.DisputeChargedback p)).total_funds.val =
        v.total_funds.val - p.amount.val ∧
    (v.update (.DisputeChargedback p)).is_locked = true ∧
    (v.total_funds.val = v.available_funds.val + v.held_funds.val →
      (v.update (.DisputeChargedback p)).total_funds.val =
        (v.update (.DisputeChargedback p)).available_funds.val +
        (v.update (.DisputeChargedback p)).held_funds.val) := by
  refine ⟨rfl, Dec.val_sub _ _, rfl, rfl, Dec.val_sub _ _, Dec.val_sub _ _,
    rfl, fun h => ?_⟩
  show (v.total_funds.sub p.amount).val =
    v.available_funds.val + (v.held_funds.sub p.amount).val
  rw [Dec.val_sub, Dec.val_sub]
  linarith

/-- Witness for C8 on a concrete consistent view. -/
theorem C8_chargeback_frame_witness :
    (AccountView.update (AccountView.mk "1" ⟨10, 1⟩ ⟨5, 1⟩ ⟨15, 1⟩ false)
        (.DisputeChargedback ⟨"1", "5", ⟨5, 1⟩⟩)).total_funds.val =
      (AccountView.update (AccountView.mk "1" ⟨10, 1⟩ ⟨5, 1⟩ ⟨15, 1⟩ false)
        (.DisputeChargedback ⟨"1", "5", ⟨5, 1⟩⟩)).available_funds.val +
      (AccountView.update (AccountView.mk "1" ⟨10, 1⟩ ⟨5, 1⟩ ⟨15, 1⟩ false)
        (.DisputeChargedback ⟨"1", "5", ⟨5, 1⟩⟩)).held_funds.val :=
  (C8_chargeback_frame Account.initial
      (AccountView.mk "1" ⟨10, 1⟩ ⟨5, 1⟩ ⟨15, 1⟩ false)
      ⟨"1", "5", ⟨5, 1⟩⟩).2.2.2.2.2.2.2 (by norm_num [Dec.val])

/-! ## Orchestrator-level lemmas -/

theorem foldl_applyEvent_recorded (l : List TransactionEvent) (t : Transaction) :
    (l.foldl Transaction.applyEvent t).recorded = (t.recorded || !l.isEmpty) := by
  induction l generalizing t with
  | nil => simp
  | cons e l ih =>
    cases e
    rw [List.foldl_cons, ih]
    simp [Transaction.applyEvent]

theorem loadTransaction_recorded (s : PayState) (k : String) :
    (loadTransaction s k).recorded = !(s.txEvents k).isEmpty := by
  unfold loadTransaction
  rw [foldl_applyEvent_recorded]
  simp [Transaction.initial]

theorem record_duplicate {t : Transaction} {p : RecordTransactionPayload}
    (h : t.recorded = true) :
    Transaction.handle t (.RecordTransaction p) = .error .DuplicateTransaction := by
  rw [show Transaction.handle t (.RecordTransaction p) = Transaction.record t p
    from rfl]
  unfold Transaction.record require_new
  rw [if_pos h]

theorem record_fresh {t : Transaction} {p : RecordTransactionPayload}
    (h : t.recorded = false) :
    Transaction.handle t (.RecordTransaction p) =
      .ok [.TransactionRecorded ⟨p.id, p.client_id, p.amount⟩] := by
  rw [show Transaction.handle t (.RecordTransaction p) = Transaction.record t p
    from rfl]
  unfold Transaction.record require_new
  rw [if_neg (by simp [h])]

theorem executeTransaction_of_handle_error {s : PayState} {aggId : String}
    {c : TransactionCommand} {e : TransactionError}
    (h : Transaction.handle (loadTransaction s aggId) c = .error e) :
    executeTransaction s aggId c = (s, .error e) := by
  unfold executeTransaction
  rw [h]

theorem executeTransaction_of_handle_ok {s : PayState} {aggId : String}
    {c : TransactionCommand} {evs : List TransactionEvent}
    (h : Transaction.handle (loadTransaction s aggId) c = .ok evs) :
    executeTransaction s aggId c =
      ({ s with txEvents := fun k =>
          if k = aggId then s.txEvents k ++ evs else s.txEvents k }, .ok ()) := by
  unfold executeTransaction
  rw [h]

theorem executeAccount_of_handle_error {s : PayState} {aggId : String}
    {c : AccountCommand} {e : AccountError}
    (h : Account.handle (loadAccount s aggId) c = .error e) :
    executeAccount s aggId c = (s, .error e) := by
  unfold executeAccount
  rw [h]

theorem executeTransaction_accEvents (s : PayState) (aggId : String)
    (c : TransactionCommand) :
    (executeTransaction s aggId c).1.accEvents = s.accEvents := by
  unfold executeTransaction
  split <;> rfl

theorem executeAccount_txEvents (s : PayState) (aggId : String)
    (c : AccountCommand) :
    (executeAccount s aggId c).1.txEvents = s.txEvents := by
  unfold executeAccount
  split <;> rfl

theorem executeTransaction_txEvents_ne {s : PayState} {aggId : String}
    {c : TransactionCommand} (k : String) (h : s.txEvents k ≠ []) :
    (executeTransaction s aggId c).1.txEvents k ≠ [] := by
  unfold executeTransaction
  split
  · exact h
  next evs heq =>
    show (if k = aggId then s.txEvents k ++ evs else s.txEvents k) ≠ []
    by_cases hk : k = aggId
    · rw [if_pos hk]
      intro hc
      exact h (List.append_eq_nil.mp hc).1
    · rw [if_neg hk]
      exact h

theorem handleRecord_eq_deposit {s : PayState} {r : CsvPaymentRecord}
    (h : r.tx_type = .deposit) : handleRecord s r = handle_deposit s r := by
  unfold handleRecord
  rw [h]

theorem handleRecord_eq_withdrawal {s : PayState} {r : CsvPaymentRecord}
    (h : r.tx_type = .withdrawal) : handleRecord s r = handle_withdrawal s r := by
  unfold handleRecord
  rw [h]

theorem handleRecord_eq_dispute {s : PayState} {r : CsvPaymentRecord}
    (h : r.tx_type = .dispute) : handleRecord s r = handle_dispute_funds s r := by
  unfold handleRecord
  rw [h]

theorem handleRecord_eq_resolve {s : PayState} {r : CsvPaymentRecord}
    (h : r.tx_type = .resolve) : handleRecord s r = handle_resolve_dispute s r := by
  unfold handleRecord
  rw [h]

theorem handleRecord_eq_chargeback {s : PayState} {r : CsvPaymentRecord}
    (h : r.tx_type = .chargeback) :
    handleRecord s r = handle_chargeback_dispute s r := by
  unfold handleRecord
  rw [h]

theorem handle_deposit_amount_none {s : PayState} {r : CsvPaymentRecord}
    (h : r.amount = none) :
    handle_deposit s r = (s, .error (.NoAmount r.tx_id)) := by
  unfold handle_deposit
  rw [h]

theorem handle_withdrawal_amount_none {s : PayState} {r : CsvPaymentRecord}
    (h : r.amount = none) :
    handle_withdrawal s r = (s, .error (.NoAmount r.tx_id)) := by
  unfold handle_withdrawal
  rw [h]

theorem handle_deposit_step {s : PayState} {r : CsvPaymentRecord} {amt : Dec}
    (ham : r.amount = some amt) :
    handle_deposit s r =
      match executeTransaction s (tx_aggregate_id r.tx_id)
          (.RecordTransaction ⟨r.tx_id, r.client_id, amt⟩) with
      | (s1, .error e) => (s1, .error (.TxError e))
      | (s1, .ok _) =>
        match executeAccount s1 (acc_aggregate_id r.client_id)
            (.DepositAccount ⟨r.client_id, r.tx_id, amt⟩) with
        | (s2, .error e) => (s2, .error (.AccError e))
        | (s2, .ok _) => (s2, .ok ()) := by
  unfold handle_deposit
  rw [ham]

theorem handle_withdrawal_step {s : PayState} {r : CsvPaymentRecord} {amt : Dec}
    (ham : r.amount = some amt) :
    handle_withdrawal s r =
      match executeTransaction s (tx_aggregate_id r.tx_id)
          (.RecordTransaction ⟨r.tx_id, r.client_id, amt⟩) with
      | (s1, .error e) => (s1, .error (.TxError e))
      | (s1, .ok _) =>
        ((executeAccount s1 (acc_aggregate_id r.client_id)
            (.WithdrawAccount ⟨r.client_id, r.tx_id, amt⟩)).1, .ok ()) := by
  unfold handle_withdrawal
  rw [ham]

theorem handle_dispute_withdrawal_target {s : PayState} {r : CsvPaymentRecord}
    (h : (loadTransaction s (tx_aggregate_id r.tx_id)).tx_type =
      some .Withdrawal) :
    handle_dispute_funds s r = (s, .error .DisputeOnWithdrawal) := by
  unfold handle_dispute_funds
  rw [h]

theorem handle_dispute_step {s : PayState} {r : CsvPaymentRecord}
    (h : (loadTransaction s (tx_aggregate_id r.tx_id)).tx_type ≠
      some .Withdrawal) :
    handle_dispute_funds s r =
      match executeAccount s (acc_aggregate_id r.client_id)
          (.DisputeFunds ⟨r.client_id, r.tx_id,
            (loadTransaction s (tx_aggregate_id r.tx_id)).amount⟩) with
      | (s1, .error e) => (s1, .error (.AccError e))
      | (s1, .ok _) => (s1, .ok ()) := by
  unfold handle_dispute_funds
  cases htt : (loadTransaction s (tx_aggregate_id r.tx_id)).tx_type with
  | none => rfl
  | some tt =>
    cases tt with
    | Deposit => rfl
    | Withdrawal => exact absurd htt h

/-- Processing any record preserves non-emptiness of every transaction
stream: the stores are append-only. -/
theorem handleRecord_txEvents_ne {s : PayState} {r : CsvPaymentRecord} (k : String)
    (h : s.txEvents k ≠ []) : ((handleRecord s r).1).txEvents k ≠ [] := by
  cases hty : r.tx_type with
  | deposit =>
    rw [handleRecord_eq_deposit hty]
    cases ham : r.amount with
    | none =>
      rw [handle_deposit_amount_none ham]
      exact h
    | some amt =>
      rw [handle_deposit_step ham]
      cases hex : executeTransaction s (tx_aggregate_id r.tx_id)
          (.RecordTransaction ⟨r.tx_id, r.client_id, amt⟩) with
      | mk s1 res =>
        have hs1 : s1.txEvents k ≠ [] := by
          have hgrow := @executeTransaction_txEvents_ne s (tx_aggregate_id r.tx_id)
            (TransactionCommand.RecordTransaction ⟨r.tx_id, r.client_id, amt⟩) k h
          rwa [hex] at hgrow
        cases res with
        | error e => exact hs1
        | ok u =>
          cases u
          show (match executeAccount s1 (acc_aggregate_id r.client_id)
              (.DepositAccount ⟨r.client_id, r.tx_id, amt⟩) with
            | (s2, Except.error e) => (s2, Except.error (ProcError.AccError e))
            | (s2, Except.ok _) => (s2, Except.ok ())).1.txEvents k ≠ []
          cases hex2 : executeAccount s1 (acc_aggregate_id r.client_id)
              (.DepositAccount ⟨r.client_id, r.tx_id, amt⟩) with
          | mk s2 res2 =>
            have hs2 : s2.txEvents = s1.txEvents := by
              have hkeep := executeAccount_txEvents s1 (acc_aggregate_id r.client_id)
                (.DepositAccount ⟨r.client_id, r.tx_id, amt⟩)
              rwa [hex2] at hkeep
            cases res2 with
            | error e =>
              show s2.txEvents k ≠ []
              rw [hs2]
              exact hs1
            | ok u2 =>
              show s2.txEvents k ≠ []
              rw [hs2]
              exact hs1
  | withdrawal =>
    rw [handleRecord_eq_withdrawal hty]
    cases ham : r.amount with
    | none =>
      rw [handle_withdrawal_amount_none ham]
      exact h
    | some amt =>
      rw [handle_withdrawal_step ham]
      cases hex : executeTransaction s (tx_aggregate_id r.tx_id)
          (.RecordTransaction ⟨r.tx_id, r.client_id, amt⟩) with
      | mk s1 res =>
        have hs1 : s1.txEvents k ≠ [] := by
          have hgrow := @executeTransaction_txEvents_ne s (tx_aggregate_id r.tx_id)
            (TransactionCommand.RecordTransaction ⟨r.tx_id, r.client_id, amt⟩) k h
          rwa [hex] at hgrow
        cases res with
        | error e => exact hs1
        | ok u =>
          cases u
          show ((executeAccount s1 (acc_aggregate_id r.client_id)
            (.WithdrawAccount ⟨r.client_id, r.tx_id, amt⟩)).1).txEvents k ≠ []
          rw [executeAccount_txEvents]
          exact hs1
  | dispute =>
    rw [handleRecord_eq_dispute hty]
    by_cases htt : (loadTransaction s (tx_aggregate_id r.tx_id)).tx_type =
      some .Withdrawal
    · rw [handle_dispute_withdrawal_target htt]
      exact h
    · rw [handle_dispute_step htt]
      cases hex : executeAccount s (acc_aggregate_id r.client_id)
          (.DisputeFunds ⟨r.client_id, r.tx_id,
            (loadTransaction s (tx_aggregate_id r.tx_id)).amount⟩) with
      | mk s1 res =>
        have hs1 : s1.txEvents = s.txEvents := by
          have hkeep := executeAccount_txEvents s (acc_aggregate_id r.client_id)
            (.DisputeFunds ⟨r.client_id, r.tx_id,
              (loadTransaction s (tx_aggregate_id r.tx_id)).amount⟩)
          rwa [hex] at hkeep
        cases res with
        | error e =>
          show s1.txEvents k ≠ []
          rw [hs1]
          exact h
        | ok u =>
          show s1.txEvents k ≠ []
          rw [hs1]
          exact h
  | resolve =>
    rw [handleRecord_eq_resolve hty]
    show ((executeAccount s (acc_aggregate_id r.client_id)
      (.ResolveDispute ⟨r.client_id, r.tx_id⟩)).1).txEvents k ≠ []
    rw [executeAccount_txEvents]
    exact h
  | chargeback =>
    rw [handleRecord_eq_chargeback hty]
    show ((executeAccount s (acc_aggregate_id r.client_id)
      (.ChargebackDispute ⟨r.client_id, r.tx_id⟩)).1).txEvents k ≠ []
    rw [executeAccount_txEvents]
    exact h

/-- A deposit or withdrawal record carrying an amount leaves the
transaction's event stream non-empty: either the record is fresh and a
`TransactionRecorded` event is appended, or it was already recorded. -/
theorem handleRecord_dw_records {s : PayState} {r : CsvPaymentRecord} {amt : Dec}
    (hty : r.tx_type = .deposit ∨ r.tx_type = .withdrawal)
    (ham : r.amount = some amt) :
    ((handleRecord s r).1).txEvents (tx_aggregate_id r.tx_id) ≠ [] := by
  have key : (executeTransaction s (tx_aggregate_id r.tx_id)
      (.RecordTransaction ⟨r.tx_id, r.client_id, amt⟩)).1.txEvents
        (tx_aggregate_id r.tx_id) ≠ [] := by
    cases hrec : (loadTransaction s (tx_aggregate_id r.tx_id)).recorded with
    | true =>
      rw [executeTransaction_of_handle_error (record_duplicate hrec)]
      have hne := loadTransaction_recorded s (tx_aggregate_id r.tx_id)
      rw [hrec] at hne
      intro hc
      rw [hc] at hne
      exact Bool.noConfusion hne
    | false =>
      rw [executeTransaction_of_handle_ok (record_fresh hrec)]
      show (if tx_aggregate_id r.tx_id = tx_aggregate_id r.tx_id
        then s.txEvents (tx_aggregate_id r.tx_id) ++
          [.TransactionRecorded ⟨r.tx_id, r.client_id, amt⟩]
        else s.txEvents (tx_aggregate_id r.tx_id)) ≠ []
      rw [if_pos rfl]
      intro hc
      exact List.noConfusion (List.append_eq_nil.mp hc).2
  rcases hty with hty | hty
  · rw [handleRecord_eq_deposit hty, handle_deposit_step ham]
    cases hex : executeTransaction s (tx_aggregate_id r.tx_id)
        (.RecordTransaction ⟨r.tx_id, r.client_id, amt⟩) with
    | mk s1 res =>
      rw [hex] at key
      cases res with
      | error e => exact key
      | ok u =>
        cases u
        show (match executeAccount s1 (acc_aggregate_id r.client_id)
            (.DepositAccount ⟨r.client_id, r.tx_id, amt⟩) with
          | (s2, Except.error e) => (s2, Except.error (ProcError.AccError e))
          | (s2, Except.ok _) => (s2, Except.ok ())).1.txEvents (tx_aggregate_id r.tx_id) ≠ []
        cases hex2 : executeAccount s1 (acc_aggregate_id r.client_id)
            (.DepositAccount ⟨r.client_id, r.tx_id, amt⟩) with
        | mk s2 res2 =>
          have hs2 : s2.txEvents = s1.txEvents := by
            have hkeep := executeAccount_txEvents s1 (acc_aggregate_id r.client_id)
              (.DepositAccount ⟨r.client_id, r.tx_id, amt⟩)
            rwa [hex2] at hkeep
          cases res2 with
          | error e =>
            show s2.txEvents (tx_aggregate_id r.tx_id) ≠ []
            rw [hs2]
            exact key
          | ok u2 =>
            show s2.txEvents (tx_aggregate_id r.tx_id) ≠ []
            rw [hs2]
            exact key
  · rw [handleRecord_eq_withdrawal hty, handle_withdrawal_step ham]
    cases hex : executeTransaction s (tx_aggregate_id r.tx_id)
        (.RecordTransaction ⟨r.tx_id, r.client_id, amt⟩) with
    | mk s1 res =>
      rw [hex] at key
      cases res with
      | error e => exact key
      | ok u =>
        cases u
        show ((executeAccount s1 (acc_aggregate_id r.client_id)
          (.WithdrawAccount ⟨r.client_id, r.tx_id, amt⟩)).1).txEvents
            (tx_aggregate_id r.tx_id) ≠ []
        rw [executeAccount_txEvents]
        exact key

/-- A duplicate (or amount-less) deposit/withdrawal record leaves the
whole state unchanged: `RecordTransaction` fails and the Account
command is never attempted. -/
theorem handleRecord_duplicate_noop {s : PayState} {r : CsvPaymentRecord}
    (hty : r.tx_type = .deposit ∨ r.tx_type = .withdrawal)
    (h : r.amount = none ∨
      (loadTransaction s (tx_aggregate_id r.tx_id)).recorded = true) :
    (handleRecord s r).1 = s := by
  rcases hty with hty | hty
  · rw [handleRecord_eq_deposit hty]
    cases ham : r.amount with
    | none => rw [handle_deposit_amount_none ham]
    | some amt =>
      rcases h with h | h
      · rw [ham] at h
        exact Option.noConfusion h
      · rw [handle_deposit_step ham,
          executeTransaction_of_handle_error (record_duplicate h)]
  · rw [handleRecord_eq_withdrawal hty]
    cases ham : r.amount with
    | none => rw [handle_withdrawal_amount_none ham]
    | some amt =>
      rcases h with h | h
      · rw [ham] at h
        exact Option.noConfusion h
      · rw [handle_withdrawal_step ham,
          executeTransaction_of_handle_error (record_duplicate h)]


theorem processRecords_nil (s : PayState) : processRecords s [] = s := rfl

theorem processRecords_cons (s : PayState) (r : CsvPaymentRecord)
    (rs : List CsvPaymentRecord) :
    processRecords s (r :: rs) = processRecords ((handleRecord s r).1) rs := rfl

theorem processRecords_append (s : PayState) (xs ys : List CsvPaymentRecord) :
    processRecords s (xs ++ ys) = processRecords (processRecords s xs) ys := by
  unfold processRecords
  rw [List.foldl_append]

theorem processRecords_txEvents_ne {rs : List CsvPaymentRecord} {s : PayState}
    (k : String) (h : s.txEvents k ≠ []) :
    (processRecords s rs).txEvents k ≠ [] := by
  induction rs generalizing s with
  | nil => exact h
  | cons r rs ih =>
    rw [processRecords_cons]
    exact ih (handleRecord_txEvents_ne k h)

theorem processRecords_mem_records {xs : List CsvPaymentRecord} {s : PayState}
    {r : CsvPaymentRecord} {amt : Dec}
    (hty : r.tx_type = .deposit ∨ r.tx_type = .withdrawal)
    (ham : r.amount = some amt) (hmem : r ∈ xs) :
    (processRecords s xs).txEvents (tx_aggregate_id r.tx_id) ≠ [] := by
  induction xs generalizing s with
  | nil => cases hmem
  | cons x t ih =>
    rw [processRecords_cons]
    rcases List.mem_cons.mp hmem with hx | hx
    · subst hx
      exact processRecords_txEvents_ne _ (handleRecord_dw_records hty ham)
    · exact ih hx

/-- Claim C3: a deposit or withdrawal record whose transaction id was
already recorded fails at `RecordTransaction` with
`DuplicateTransaction`, the Account command is not attempted and the
state is unchanged; consequently reprocessing an input with any deposit
or withdrawal row duplicated yields the same final state. -/
theorem C3_duplicate_suppression :
    (∀ (s : PayState) (r : CsvPaymentRecord) (amt : Dec),
      (r.tx_type = .deposit ∨ r.tx_type = .withdrawal) →
      r.amount = some amt →
      (loadTransaction s (tx_aggregate_id r.tx_id)).recorded = true →
      handleRecord s r = (s, .error (.TxError .DuplicateTransaction))) ∧
    (∀ (s : PayState) (xs ys : List CsvPaymentRecord) (r : CsvPaymentRecord),
      (r.tx_type = .deposit ∨ r.tx_type = .withdrawal) →
      r ∈ xs →
      processRecords s (xs ++ r :: ys) = processRecords s (xs ++ ys)) := by
  constructor
  · intro s r amt hty ham hrec
    rcases hty with hty | hty
    · rw [handleRecord_eq_deposit hty, handle_deposit_step ham,
        executeTransaction_of_handle_error (record_duplicate hrec)]
    · rw [handleRecord_eq_withdrawal hty, handle_withdrawal_step ham,
        executeTransaction_of_handle_error (record_duplicate hrec)]
  · intro s xs ys r hty hmem
    rw [processRecords_append, processRecords_append, processRecords_cons]
    have hnoop : (handleRecord (processRecords s xs) r).1 = processRecords s xs := by
      cases ham : r.amount with
      | none => exact handleRecord_duplicate_noop hty (Or.inl ham)
      | some amt =>
        apply handleRecord_duplicate_noop hty
        right
        rw [loadTransaction_recorded]
        have hne := processRecords_mem_records (s := s) hty ham hmem
        cases hl : (processRecords s xs).txEvents (tx_aggregate_id r.tx_id) with
        | nil => exact absurd hl hne
        | cons a l => rfl
    rw [hnoop]

/-- Witness for C3: a duplicated `deposit, 1, 1, 1.0` row is rejected
with `DuplicateTransaction` and does not change the final state. -/
theorem C3_duplicate_suppression_witness :
    handleRecord stateAfterDep1 rDep1 =
      (stateAfterDep1, .error (.TxError .DuplicateTransaction)) ∧
    processRecords PayState.initial [rDep1, rDep1] =
      processRecords PayState.initial [rDep1] :=
  ⟨C3_duplicate_suppression.1 stateAfterDep1 rDep1 ⟨10, 1⟩ (Or.inl rfl) rfl rfl,
   C3_duplicate_suppression.2 PayState.initial [rDep1] [] rDep1 (Or.inl rfl)
     (List.mem_singleton.mpr rfl)⟩

/-- Counterexample to claim C9 as stated: for a deposit record whose
`RecordTransaction` succeeds (the transaction stream is extended), a
failure of the Account command (`0.12345` has scale 5, hence
`IllegalAmount`) is propagated: `handle_deposit` returns an error, not
ok. -/
theorem C9_counterexample :
    (handle_deposit PayState.initial rDepBad).2 =
      .error (.AccError .IllegalAmount) ∧
    (handle_deposit PayState.initial rDepBad).2 ≠ .ok () ∧
    ((handle_deposit PayState.initial rDepBad).1).txEvents
        (tx_aggregate_id "1") =
      [.TransactionRecorded ⟨"1", "1", ⟨12345, 5⟩⟩] := by
  refine ⟨rfl, fun hc => ?_, rfl⟩
  have heval : (Except.error (ProcError.AccError AccountError.IllegalAmount) :
      Except ProcError Unit) = .ok () := by
    calc (Except.error (ProcError.AccError AccountError.IllegalAmount) :
        Except ProcError Unit)
        = (handle_deposit PayState.initial rDepBad).2 := rfl
      _ = .ok () := hc
  exact Except.noConfusion heval

/-- Claim C9 (amended): when `RecordTransaction` succeeds, a failure of
the subsequent Account command is swallowed for withdrawals — the
handler returns ok — but for deposits it is propagated as the handler's
error (the caller logs it, so the run continues either way). -/
theorem C9_swallow_behavior (s : PayState) (r : CsvPaymentRecord) (amt : Dec)
    (ham : r.amount = some amt)
    (hfresh : (loadTransaction s (tx_aggregate_id r.tx_id)).recorded = false) :
    (handle_withdrawal s r).2 = .ok () ∧
    (∀ e, Account.handle (loadAccount s (acc_aggregate_id r.client_id))
        (.DepositAccount ⟨r.client_id, r.tx_id, amt⟩) = .error e →
      (handle_deposit s r).2 = .error (.AccError e)) := by
  have hok := record_fresh (p := ⟨r.tx_id, r.client_id, amt⟩) hfresh
  have hex := executeTransaction_of_handle_ok hok
  constructor
  · rw [handle_withdrawal_step ham, hex]
  · intro e he
    rw [handle_deposit_step ham]
    cases hex2 : executeTransaction s (tx_aggregate_id r.tx_id)
        (.RecordTransaction ⟨r.tx_id, r.client_id, amt⟩) with
    | mk s1 res =>
      have hacc : s1.accEvents = s.accEvents := by
        have hkeep := executeTransaction_accEvents s (tx_aggregate_id r.tx_id)
          (.RecordTransaction ⟨r.tx_id, r.client_id, amt⟩)
        rwa [hex2] at hkeep
      cases res with
      | error e2 =>
        have hcontra := hex
        rw [hex2] at hcontra
        injection hcontra with h1 h2
        exact Except.noConfusion h2
      | ok u =>
        cases u
        show (match executeAccount s1 (acc_aggregate_id r.client_id)
            (.DepositAccount ⟨r.client_id, r.tx_id, amt⟩) with
          | (s2, Except.error e) => (s2, Except.error (ProcError.AccError e))
          | (s2, Except.ok _) => (s2, Except.ok ())).2 =
          .error (.AccError e)
        have hload : loadAccount s1 (acc_aggregate_id r.client_id) =
            loadAccount s (acc_aggregate_id r.client_id) := by
          unfold loadAccount
          rw [hacc]
        have he1 : Account.handle (loadAccount s1 (acc_aggregate_id r.client_id))
            (.DepositAccount ⟨r.client_id, r.tx_id, amt⟩) = .error e := by
          rw [hload]
          exact he
        rw [executeAccount_of_handle_error he1]

/-- Witness for C9 (amended): a withdrawal with insufficient funds is
swallowed; a deposit with an over-scale amount propagates
`IllegalAmount`. -/
theorem C9_swallow_behavior_witness :
    (handle_withdrawal PayState.initial rWdPoor).2 = .ok () ∧
    (handle_deposit PayState.initial rDepBad).2 =
      .error (.AccError .IllegalAmount) :=
  ⟨(C9_swallow_behavior PayState.initial rWdPoor ⟨10, 1⟩ rfl rfl).1,
   (C9_swallow_behavior PayState.initial rDepBad ⟨12345, 5⟩ rfl rfl).2
     .IllegalAmount rfl⟩

/-- Claim C1 (code evaluation at the failing input
`deposit,1,1,1.0` then `dispute,1,1`): the deposit is recorded and
applied, but `Transaction::apply` discards the event payload, so the
rehydrated Transaction aggregate memoizes amount `0`, not the deposit's
`1.0`; the orchestrator therefore executes `DisputeFunds` with amount
`0`, which the Account aggregate rejects with `IllegalAmount`, and no
`FundsDisputed` event is ever produced — contradicting the claim (and
the repository's own `dispute_reflecting` integration test). -/
theorem C1_code_eval :
    stateAfterDep1.accEvents (acc_aggregate_id "1") =
      [.AccountDeposited ⟨"1", "1", ⟨10, 1⟩⟩] ∧
    (loadTransaction stateAfterDep1 (tx_aggregate_id "1")).recorded = true ∧
    (loadTransaction stateAfterDep1 (tx_aggregate_id "1")).amount = Dec.zero ∧
    (loadTransaction stateAfterDep1 (tx_aggregate_id "1")).amount.val ≠
      (⟨10, 1⟩ : Dec).val ∧
    (handleRecord stateAfterDep1 rDisp1).2 = .error (.AccError .IllegalAmount) ∧
    ((handleRecord stateAfterDep1 rDisp1).1).accEvents (acc_aggregate_id "1") =
      stateAfterDep1.accEvents (acc_aggregate_id "1") := by
  refine ⟨rfl, rfl, rfl, ?_, rfl, rfl⟩
  show Dec.zero.val ≠ (⟨10, 1⟩ : Dec).val
  norm_num [Dec.val, Dec.zero]

/-- Claim C4 (code evaluation at scenario S5: `deposit,1,1,5.0`,
`withdrawal,1,2,1.0`, then `dispute,1,2`): the rehydrated Transaction
aggregate for the withdrawal has `tx_type = none` (the type is never
stored anywhere), so the "dispute not allowed for withdrawals" branch
cannot fire; instead a `DisputeFunds` Account command is executed with
the default amount `0` and fails with `IllegalAmount`.  The account is
unchanged, but not by the mechanism the claim states. -/
theorem C4_code_eval :
    (loadTransaction stateAfterS5 (tx_aggregate_id "2")).recorded = true ∧
    (loadTransaction stateAfterS5 (tx_aggregate_id "2")).tx_type = none ∧
    (handleRecord stateAfterS5 rDisp2).2 = .error (.AccError .IllegalAmount) ∧
    (handleRecord stateAfterS5 rDisp2).2 ≠ .error .DisputeOnWithdrawal ∧
    ((handleRecord stateAfterS5 rDisp2).1).accEvents (acc_aggregate_id "1") =
      stateAfterS5.accEvents (acc_aggregate_id "1") := by
  refine ⟨rfl, rfl, rfl, fun hc => ?_, rfl⟩
  have heval : (Except.error (ProcError.AccError AccountError.IllegalAmount) :
      Except ProcError Unit) = .error .DisputeOnWithdrawal := by
    calc (Except.error (ProcError.AccError AccountError.IllegalAmount) :
        Except ProcError Unit)
        = (handleRecord stateAfterS5 rDisp2).2 := rfl
      _ = .error .DisputeOnWithdrawal := hc
  injection heval with h3
  exact ProcError.noConfusion h3

/-- Claim C5 (code evaluation at the failing input `dispute,9,99` with
transaction 99 never recorded): `require_transaction` loads the default
(unrecorded) Transaction aggregate without checking `recorded`, no
"unknown transaction" report exists, and a `DisputeFunds` Account
command is executed — it fails with `IllegalAmount` because the default
memoized amount is `0`.  The account state is unchanged, but an Account
command was executed, contrary to the claim. -/
theorem C5_code_eval :
    (loadTransaction PayState.initial (tx_aggregate_id "99")).recorded = false ∧
    (handleRecord PayState.initial rDisp99).2 =
      .error (.AccError .IllegalAmount) ∧
    ((handleRecord PayState.initial rDisp99).1).accEvents
      (acc_aggregate_id "9") = [] :=
  ⟨rfl, rfl, rfl⟩

end Payments
